import Mathlib

/-!
Verification of the legacy dynamic-resolution core of `BaseConnectorService`
(`src/unnamed/part_000`): request routing, response normalization, path
extraction and the two public legacy operations, together with the
allow-list test and parameter merging.

JavaScript runtime values are modelled by the inductive type `JSON`, which
carries an explicit `undef` constructor so that JS `undefined` stays
distinguishable from a present `null`.  Thrown exceptions and rejected
promises are modelled with `Except JSError`.
-/

/-- A JavaScript runtime value.  `undef` models JS `undefined`; `obj` keeps
fields in insertion order, as JS objects do. -/
inductive JSON where
  | undef
  | null
  | bool (b : Bool)
  | num (n : Int)
  | str (s : String)
  | arr (elems : List JSON)
  | obj (fields : List (String × JSON))

/-- JS truthiness of a value. -/
def JSON.truthy : JSON → Bool
  | .undef => false
  | .null => false
  | .bool b => b
  | .num n => n != 0
  | .str s => s != ""
  | .arr _ => true
  | .obj _ => true

/-- The utils-package `isNullOrUndefined`: true exactly on `null` and
`undefined`. -/
def isNullOrUndefined : JSON → Bool
  | .undef => true
  | .null => true
  | _ => false

/-- True exactly on the `undef` constructor. -/
def JSON.isUndef : JSON → Bool
  | .undef => true
  | _ => false

/-- First-match lookup in a JS object field list; a missing key yields
`undefined`, as JS member access does. -/
def lookupField : List (String × JSON) → String → JSON
  | [], _ => .undef
  | (k', v) :: rest, k => if k' = k then v else lookupField rest k

/-- Member access that cannot throw: field lookup on objects, `undefined` on
every non-object value.  Used where the source reads a property of a value
already known not to be nullish. -/
def memberD : JSON → String → JSON
  | .obj fields, k => lookupField fields k
  | _, _ => .undef

mutual

/-- JS string coercion of a value (template-literal interpolation). -/
def jsToString : JSON → String
  | .undef => "undefined"
  | .null => "null"
  | .bool b => if b then "true" else "false"
  | .num n => toString n
  | .str s => s
  | .arr xs => jsArrToString xs
  | .obj _ => "[object Object]"

/-- JS `Array.prototype.toString`: elements joined by commas, with `null`
and `undefined` elements printing as empty strings. -/
def jsArrToString : List JSON → String
  | [] => ""
  | x :: rest =>
    (if isNullOrUndefined x then "" else jsToString x)
      ++ (if rest.isEmpty then "" else ",") ++ jsArrToString rest

end

/-- The JS `.length` read performed by `values && values.length`: array and
string lengths, a plain field read on objects, `undefined` on other
non-nullish values. -/
def lengthMember : JSON → JSON
  | .arr xs => .num xs.length
  | .str s => .num s.length
  | .obj fields => lookupField fields "length"
  | _ => JSON.undef

/-- The field list of an object, `[]` for any other value; used for JS
object spread of a possibly-undefined map. -/
def objFieldsOf : JSON → List (String × JSON)
  | .obj fields => fields
  | _ => []

/-- JS property assignment `o[k] = v` on an object field list: overwrites
the first occurrence of the key in place, otherwise appends. -/
def objAssign : List (String × JSON) → String → JSON → List (String × JSON)
  | [], k, v => [(k, v)]
  | (k', v') :: rest, k, v =>
    if k' = k then (k, v) :: rest else (k', v') :: objAssign rest k v

/-- JS object spread `\x7b...base, ...extra\x7d`: later fields overwrite
earlier ones. -/
def spreadMerge (base extra : List (String × JSON)) : List (String × JSON) :=
  extra.foldl (fun acc kv => objAssign acc kv.1 kv.2) base

/-- ASCII lower-casing of one character (the case the descriptor and
method strings use); kept kernel-reducible. -/
def asciiLower (c : Char) : Char :=
  if 'A' ≤ c && c ≤ 'Z' then Char.ofNat (c.toNat + 32) else c

/-- The `String.prototype.toLowerCase`, kernel-reducible. -/
def strToLower (s : String) : String := String.mk (s.toList.map asciiLower)

/-- Split a character list at every occurrence of the separator. -/
def splitCharList (c : Char) : List Char → List (List Char)
  | [] => [[]]
  | x :: rest =>
    let r := splitCharList c rest
    if x = c then [] :: r
    else
      match r with
      | h :: t => (x :: h) :: t
      | [] => [[x]]

/-- The `String.prototype.split` with a one-character separator,
kernel-reducible; the empty string splits to one empty segment, as in JS. -/
def splitOnChar (c : Char) (s : String) : List String :=
  (splitCharList c s.toList).map (fun l => String.mk l)

/-- Whether `pat` occurs as a contiguous subsequence. -/
def containsSeq (pat : List Char) : List Char → Bool
  | [] => pat.isEmpty
  | x :: rest => pat.isPrefixOf (x :: rest) || containsSeq pat rest

/-- The JS `?? null` coalescing applied to an extraction result. -/
def nullCoalesce (v : JSON) : JSON :=
  if isNullOrUndefined v then .null else v

/-- The strict comparison `statusCode === 'OK'`. -/
def isOkStatus : JSON → Bool
  | .str s => s = "OK"
  | _ => false

/-- Modelled from the spec: the Path Extractor, i.e. `getObjectPropertyValue`
of the utils package, whose source is not part of this repository.  Walks a
sequence of property-access segments: descend on objects, return `undefined`
as soon as the current value is absent or not an object; the empty path
returns the root unchanged; it never throws. -/
def getObjectPropertyValue : JSON → List String → JSON
  | v, [] => v
  | .obj fields, k :: rest => getObjectPropertyValue (lookupField fields k) rest
  | _, _ => JSON.undef

/-- Modelled from the spec: `getJSONValue` of the utils package coerces an
element to its plain JSON representation; on this JSON model that is the
identity. -/
def getJSONValue (v : JSON) : JSON := v

/-- Modelled from the spec: `equals` of the utils package, case-insensitive
string equality. -/
def equals (a b : String) : Bool := strToLower a = strToLower b

/-- Modelled from the spec: `isArmResourceId` of the utils package, true on
full `/subscriptions/.../providers/...` resource identifiers. -/
def isArmResourceId (s : String) : Bool :=
  "/subscriptions/".toList.isPrefixOf s.toList && containsSeq "/providers/".toList s.toList

/-- Modelled from the spec: `pathCombine` of the helpers module joins a base
URL and a path with exactly one slash between them. -/
def pathCombine (url path : String) : String :=
  String.mk (url.toList.reverse.dropWhile (· = '/')).reverse
    ++ "/" ++ String.mk (path.toList.dropWhile (· = '/'))

/-- Modelled from the spec: the header-inspection helper
`getClientRequestIdFromHeaders` returns the client-request-id entry of a
header map, or `undefined` when there is none. -/
def getClientRequestIdFromHeaders (headers : JSON) : JSON :=
  memberD headers "x-ms-client-request-id"

namespace Types

/-- The `Types.Object` of the parsers package: the object kind tag. -/
def Object : String := "object"

end Types

/-- JS truthiness of an optional descriptor path: absent and empty strings
read as unset. -/
def strTruthy : Option String → Bool
  | some s => s != ""
  | none => false

/-- The two members of `ConnectorServiceErrorCode` this core throws with. -/
inductive ConnectorServiceErrorCode where
  | API_EXECUTION_FAILED
  | API_EXECUTION_FAILED_WITH_ERROR
deriving DecidableEq

/-- The `data` payload of a `ConnectorServiceException`: request diagnostics
at the transport boundary, the full connector response envelope at the API
boundary. -/
inductive ConnectorServiceErrorData where
  | request (requestMethod : JSON) (uri : String) (inputPath : JSON)
  | response (connectorResponse : JSON)

/-- A thrown JS error or promise rejection: a `ConnectorServiceException`,
an `UnsupportedException`, a runtime `TypeError`, or an arbitrary error
produced by the HTTP transport (`external`, carrying its optional `message`
property). -/
inductive JSError where
  | connector (code : ConnectorServiceErrorCode) (message : String)
      (data : ConnectorServiceErrorData) (cause : Option JSError)
  | unsupported (message : String)
  | typeError (message : String)
  | external (message : Option String)

/-- The `message` property of a thrown error. -/
def JSError.messageOf : JSError → Option String
  | .connector _ m _ _ => some m
  | .unsupported m => some m
  | .typeError m => some m
  | .external m => m

/-- Member access as the JS dot operator: throws a `TypeError` on `null` and
`undefined`, otherwise behaves like `memberD`. -/
def jsMember (v : JSON) (k : String) : Except JSError JSON :=
  if isNullOrUndefined v then
    .error (.typeError ("cannot read properties of " ++ k))
  else .ok (memberD v k)

/-- The options record passed to `httpClient.get`, `httpClient.post` and
`httpClient.put`; absent `headers` or `content` are `undefined`. -/
structure HttpRequestOptions where
  uri : String
  queryParameters : List (String × JSON)
  headers : JSON
  content : JSON

/-- Which transport entry point a dispatch used. -/
inductive HttpVerb where
  | get
  | post
  | put
deriving DecidableEq

/-- One observed HTTP dispatch. -/
structure HttpCall where
  verb : HttpVerb
  options : HttpRequestOptions

/-- The `IHttpClient` capability: each dispatch settles with a resolved JSON
value or a rejection. -/
structure IHttpClient where
  get : HttpRequestOptions → Except JSError JSON
  post : HttpRequestOptions → Except JSError JSON
  put : HttpRequestOptions → Except JSError JSON

/-- A transport that settles every dispatch with the same outcome. -/
def constClient (r : Except JSError JSON) : IHttpClient :=
  ⟨fun _ => r, fun _ => r, fun _ => r⟩

/-- The identity pair of an allow-listed operation. -/
structure OperationInfo where
  connectorId : String
  operationId : String

/-- The API-Hub connection details of the service options. -/
structure ApiHubServiceDetails where
  apiVersion : String
  baseUrl : String

/-- The fields of `BaseConnectorServiceOptions` this core reads. -/
structure BaseConnectorServiceOptions where
  apiVersion : String
  baseUrl : String
  httpClient : IHttpClient
  clientSupportedOperations : List OperationInfo
  apiHubServiceDetails : ApiHubServiceDetails

/-- The `LegacyDynamicValuesExtension`: the dash-named descriptor fields
`value-collection`, `value-path`, `value-title`, `value-description` and
`value-selectable`; only `value-path` is required. -/
structure LegacyDynamicValuesExtension where
  valueCollection : Option String
  valuePath : String
  valueTitle : Option String
  valueDescription : Option String
  valueSelectable : Option String

/-- The `LegacyDynamicSchemaExtension`: the optional `value-path` descriptor
field. -/
structure LegacyDynamicSchemaExtension where
  valuePath : Option String

/-- The `_getErrorMessageFromConnectorResponse`: builds the error text from a
failed envelope.  The destructuring of `error` and `message` out of
`response.body` throws a `TypeError` when the body is nullish.  The source
declares the result a string but can assign a non-string `error.message`
to it; the final template-literal coercion is modelled with `jsToString`. -/
def getErrorMessageFromConnectorResponse (response : JSON)
    (defaultErrorMessage : String) (clientRequestId : JSON) :
    Except JSError String := do
  let body ← jsMember response "body"
  if isNullOrUndefined body then
    .error (.typeError "cannot destructure error and message from body")
  else
    let error := memberD body "error"
    let message := memberD body "message"
    let statusCode := memberD response "statusCode"
    let errorMessage : JSON :=
      if !statusCode.isUndef && message.truthy then
        .str ("Error code: '" ++ jsToString statusCode ++ "', Message: '"
          ++ jsToString message ++ "'.")
      else
        let m := if isNullOrUndefined error then JSON.undef else memberD error "message"
        if isNullOrUndefined m then .str defaultErrorMessage else m
    .ok (if clientRequestId.truthy then
        jsToString errorMessage
          ++ " More diagnostic information: x-ms-client-request-id is '"
          ++ jsToString clientRequestId ++ "'."
      else jsToString errorMessage)

/-- The `_getResponseFromDynamicApi` (the Response Normalizer): picks the
envelope (`raw.response` when non-nullish, else `raw` itself), returns its
body on an `OK` status code, and otherwise throws a
`ConnectorServiceException` with code `API_EXECUTION_FAILED_WITH_ERROR`
carrying the envelope. -/
def getResponseFromDynamicApi (responseJson : JSON) (requestUrl : String) :
    Except JSError JSON := do
  let respField ← jsMember responseJson "response"
  let connectorResponse := if isNullOrUndefined respField then responseJson else respField
  if isOkStatus (memberD connectorResponse "statusCode") then
    jsMember connectorResponse "body"
  else
    let headers ← jsMember connectorResponse "headers"
    let clientRequestId := getClientRequestIdFromHeaders headers
    let defaultErrorMessage := "Error executing the api - " ++ requestUrl
    let errorMessage ← getErrorMessageFromConnectorResponse connectorResponse
      defaultErrorMessage clientRequestId
    .error (.connector .API_EXECUTION_FAILED_WITH_ERROR errorMessage
      (.response connectorResponse) none)

/-- The merge loop of `_getInvokeParameters`: destructures `value` from the
dynamic-state entry of each key in order (a nullish entry makes the
destructuring throw a `TypeError`) and assigns it only when it is not
`undefined`. -/
def mergeAdditionalParameters (additionalFields : List (String × JSON)) :
    List String → List (String × JSON) → Except JSError (List (String × JSON))
  | [], acc => .ok acc
  | parameterName :: rest, acc =>
    let entry := lookupField additionalFields parameterName
    if isNullOrUndefined entry then
      .error (.typeError "cannot destructure value from additional parameter")
    else
      let value := memberD entry "value"
      mergeAdditionalParameters additionalFields rest
        (if value.isUndef then acc else objAssign acc parameterName value)

/-- The `_getInvokeParameters`: copies the caller parameters by object spread
and merges in every dynamic-state additional parameter whose `value` is not
`undefined`.  (A string-valued dynamic-state map, whose JS spread would
enumerate character indices, is not modelled.) -/
def getInvokeParameters (parameters dynamicState : JSON) :
    Except JSError JSON := do
  let invokeParameters := objFieldsOf parameters
  let additionalParameters ← jsMember dynamicState "parameters"
  if additionalParameters.truthy then
    let fields := objFieldsOf additionalParameters
    let merged ← mergeAdditionalParameters fields (fields.map (·.1)) invokeParameters
    .ok (.obj merged)
  else
    .ok (.obj invokeParameters)

/-- The `_isClientSupportedOperation`: allow-list membership, case-insensitive
on both identity fields jointly. -/
def isClientSupportedOperation (options : BaseConnectorServiceOptions)
    (connectorId operationId : String) : Bool :=
  options.clientSupportedOperations.any fun operationInfo =>
    equals connectorId operationInfo.connectorId
      && equals operationId operationInfo.operationId

/-- The catch blocks of `_executeAzureDynamicApi`: rewrap a caught error as
a `ConnectorServiceException` with code `API_EXECUTION_FAILED`, the caught
message when truthy (else a fallback naming the input path), request
diagnostics, and the original error as cause. -/
def wrapExecutionFailed (ex : JSError) (method : JSON) (uri : String)
    (inputPath : JSON) : JSError :=
  .connector .API_EXECUTION_FAILED
    (match ex.messageOf with
     | some m =>
       if m != "" then m
       else "Error executing the api '" ++ jsToString inputPath ++ "'."
     | none => "Error executing the api '" ++ jsToString inputPath ++ "'.")
    (.request method uri inputPath) (some ex)

/-- The `_executeAzureDynamicApi`, instrumented with the list of HTTP dispatches
it performs.  The managed-identity route awaits the POST and normalizes the
response inside its try block, so both a rejected dispatch and a normalizer
throw reach the catch and are rewrapped.  The ARM and generic routes return
the transport promise without awaiting it, so only synchronous throws (a
non-string or unsupported method) reach the catch block, while the
transport outcome itself passes through as-is. -/
def executeAzureDynamicApiWithLog (options : BaseConnectorServiceOptions)
    (connectionId connectorId : String) (parameters : JSON)
    (isManagedIdentityTypeConnection : Bool) (managedIdentityProperties : JSON) :
    Except JSError JSON × List HttpCall :=
  let method := memberD parameters "method"
  let inputPath := memberD parameters "path"
  let uri :=
    if isManagedIdentityTypeConnection then options.baseUrl ++ "/dynamicInvoke"
    else if isArmResourceId connectorId then
      pathCombine
        (options.apiHubServiceDetails.baseUrl ++ "/" ++ connectionId ++ "/extensions/proxy")
        (jsToString inputPath)
    else
      pathCombine (options.baseUrl ++ "/" ++ connectionId ++ "/extensions/proxy")
        (jsToString inputPath)
  if isManagedIdentityTypeConnection then
    let request : JSON := .obj
      [("method", method), ("path", inputPath), ("body", memberD parameters "body"),
       ("queries", memberD parameters "queries"), ("headers", memberD parameters "headers")]
    let callOptions : HttpRequestOptions :=
      { uri := uri,
        queryParameters := [("api-version", .str options.apiHubServiceDetails.apiVersion)],
        headers := .undef,
        content := .obj [("request", request), ("properties", managedIdentityProperties)] }
    let result :=
      match options.httpClient.post callOptions with
      | .ok response =>
        match getResponseFromDynamicApi response uri with
        | .ok v => .ok v
        | .error ex => .error (wrapExecutionFailed ex method uri inputPath)
      | .error ex => .error (wrapExecutionFailed ex method uri inputPath)
    (result, [⟨.post, callOptions⟩])
  else
    let callOptions : HttpRequestOptions :=
      { uri := uri,
        queryParameters :=
          spreadMerge [("api-version", .str options.apiHubServiceDetails.apiVersion)]
            (objFieldsOf (memberD parameters "queries")),
        headers := memberD parameters "headers",
        content := .undef }
    let bodyContent := memberD parameters "body"
    match method with
    | .str s =>
      match strToLower s with
      | "get" => (options.httpClient.get callOptions, [⟨.get, callOptions⟩])
      | "post" =>
        let o := if bodyContent.truthy then { callOptions with content := bodyContent }
          else callOptions
        (options.httpClient.post o, [⟨.post, o⟩])
      | "put" =>
        let o := if bodyContent.truthy then { callOptions with content := bodyContent }
          else callOptions
        (options.httpClient.put o, [⟨.put, o⟩])
      | _ =>
        (.error (wrapExecutionFailed
          (.unsupported ("Unsupported dynamic call connector method - '" ++ s ++ "'"))
          method uri inputPath), [])
    | _ =>
      (.error (wrapExecutionFailed (.typeError "method.toLowerCase is not a function")
        method uri inputPath), [])

/-- The `_executeAzureDynamicApi`: the result the awaiting caller observes. -/
def executeAzureDynamicApi (options : BaseConnectorServiceOptions)
    (connectionId connectorId : String) (parameters : JSON)
    (isManagedIdentityTypeConnection : Bool) (managedIdentityProperties : JSON) :
    Except JSError JSON :=
  (executeAzureDynamicApiWithLog options connectionId connectorId parameters
    isManagedIdentityTypeConnection managedIdentityProperties).1

/-- The element mapper inside `getLegacyDynamicValues`: builds one
dynamic-value object (keys `value`, `displayName`, `description`,
`disabled`) from a collection element. -/
def mapDynamicValue (extension : LegacyDynamicValuesExtension)
    (parameterArrayType : String) (property : JSON) : JSON :=
  let vd :=
    if parameterArrayType != "" && parameterArrayType != Types.Object then
      let v := getJSONValue property
      (v, v)
    else
      let v := getObjectPropertyValue property (splitOnChar '/' extension.valuePath)
      (v, match extension.valueTitle with
          | some t =>
            if t != "" then getObjectPropertyValue property (splitOnChar '/' t) else v
          | none => v)
  let description :=
    match extension.valueDescription with
    | some d => if d != "" then getObjectPropertyValue property (splitOnChar '/' d)
        else JSON.undef
    | none => JSON.undef
  let isSelectable :=
    match extension.valueSelectable with
    | some sel =>
      if sel != "" then
        let selectableValue := getObjectPropertyValue property (splitOnChar '/' sel)
        if isNullOrUndefined selectableValue then JSON.bool true else selectableValue
      else JSON.bool true
    | none => JSON.bool true
  .obj [("value", vd.1), ("displayName", vd.2), ("description", description),
        ("disabled", .bool (!isSelectable.truthy))]

/-- The collection locator of `getLegacyDynamicValues`: the
`value-collection` descriptor path split on slashes when truthy, else the
empty path (which makes the extractor return the whole body). -/
def collectionPathOf (extension : LegacyDynamicValuesExtension) : List String :=
  match extension.valueCollection with
  | some c => if c != "" then splitOnChar '/' c else []
  | none => []

/-- The post-processing of `getLegacyDynamicValues` after the dispatch:
locate the candidate collection, map it element-wise when present and
non-empty, otherwise pass the response through unchanged.  A truthy
collection with a truthy length that is not an array makes `values.map`
throw a `TypeError`. -/
def legacyValuesFromResponse (extension : LegacyDynamicValuesExtension)
    (parameterArrayType : String) (response : JSON) : Except JSError JSON :=
  let values := getObjectPropertyValue response (collectionPathOf extension)
  if values.truthy && (lengthMember values).truthy then
    match values with
    | .arr elems => .ok (.arr (elems.map (mapDynamicValue extension parameterArrayType)))
    | _ => .error (.typeError "values.map is not a function")
  else
    .ok response

/-- The `getLegacyDynamicValues`, instrumented with the HTTP dispatches. -/
def getLegacyDynamicValuesWithLog (options : BaseConnectorServiceOptions)
    (connectionId connectorId : String) (parameters : JSON)
    (extension : LegacyDynamicValuesExtension) (parameterArrayType : String)
    (isManagedIdentityTypeConnection : Bool) (managedIdentityProperties : JSON) :
    Except JSError JSON × List HttpCall :=
  let rl := executeAzureDynamicApiWithLog options connectionId connectorId parameters
    isManagedIdentityTypeConnection managedIdentityProperties
  (rl.1.bind (legacyValuesFromResponse extension parameterArrayType), rl.2)

/-- The `getLegacyDynamicValues`: the result the caller observes. -/
def getLegacyDynamicValues (options : BaseConnectorServiceOptions)
    (connectionId connectorId : String) (parameters : JSON)
    (extension : LegacyDynamicValuesExtension) (parameterArrayType : String)
    (isManagedIdentityTypeConnection : Bool) (managedIdentityProperties : JSON) :
    Except JSError JSON :=
  (getLegacyDynamicValuesWithLog options connectionId connectorId parameters
    extension parameterArrayType isManagedIdentityTypeConnection
    managedIdentityProperties).1

/-- The post-processing of `getLegacyDynamicSchema` after the dispatch:
`null` on a falsy body; with no truthy `value-path`, the body wrapped as an
object schema.  Otherwise the path is split and, when its final segment
equals `properties` case-insensitively, `Array.prototype.splice(-1, 1)`
removes that segment in place and returns the removed segment, so the list
handed to the extractor is the one-element list holding the final segment
(not the remaining prefix); the extraction result is `null`-coalesced. -/
def legacySchemaFromResponse (extension : LegacyDynamicSchemaExtension)
    (response : JSON) : JSON :=
  if !response.truthy then .null
  else
    match extension.valuePath with
    | some p =>
      if p != "" then
        let schemaPath := splitOnChar '/' p
        nullCoalesce (getObjectPropertyValue response
          (if schemaPath.length != 0 && equals (schemaPath.getLastD "") "properties"
           then [schemaPath.getLastD ""] else schemaPath))
      else .obj [("properties", response), ("type", .str Types.Object)]
    | none => .obj [("properties", response), ("type", .str Types.Object)]

/-- The `getLegacyDynamicSchema`, instrumented with the HTTP dispatches. -/
def getLegacyDynamicSchemaWithLog (options : BaseConnectorServiceOptions)
    (connectionId connectorId : String) (parameters : JSON)
    (extension : LegacyDynamicSchemaExtension)
    (isManagedIdentityTypeConnection : Bool) (managedIdentityProperties : JSON) :
    Except JSError JSON × List HttpCall :=
  let rl := executeAzureDynamicApiWithLog options connectionId connectorId parameters
    isManagedIdentityTypeConnection managedIdentityProperties
  (rl.1.map (legacySchemaFromResponse extension), rl.2)

/-- The `getLegacyDynamicSchema`: the result the caller observes. -/
def getLegacyDynamicSchema (options : BaseConnectorServiceOptions)
    (connectionId connectorId : String) (parameters : JSON)
    (extension : LegacyDynamicSchemaExtension)
    (isManagedIdentityTypeConnection : Bool) (managedIdentityProperties : JSON) :
    Except JSError JSON :=
  (getLegacyDynamicSchemaWithLog options connectionId connectorId parameters
    extension isManagedIdentityTypeConnection managedIdentityProperties).1

/-- A transport envelope signalling success with the given body. -/
def okEnvelope (body : JSON) : JSON :=
  .obj [("statusCode", .str "OK"), ("body", body)]

/-- A concrete service-options fixture for the closed evaluations. -/
def sampleOptions (client : IHttpClient) : BaseConnectorServiceOptions :=
  { apiVersion := "2018-07-01",
    baseUrl := "https://designer.base",
    httpClient := client,
    clientSupportedOperations := [],
    apiHubServiceDetails := { apiVersion := "2018-11-01", baseUrl := "https://apihub.base" } }

/-- The response body used to exhibit the properties-segment slip of
getLegacyDynamicSchema. -/
def c1Body : JSON :=
  .obj [("schema", .obj [("type", .str "object"),
    ("properties", .obj [("id", .obj [("type", .str "string")])])])]

/-- The non-OK envelope used to exhibit the missing normalization on the
generic route. -/
def c2Envelope : JSON :=
  .obj [("statusCode", .str "BadRequest"),
    ("body", .obj [("error", .obj [("message", .str "boom")])])]

/-- The allow-list fixture for the concrete allow-list evaluation. -/
def c9Options : BaseConnectorServiceOptions :=
  { apiVersion := "2018-07-01",
    baseUrl := "https://designer.base",
    httpClient := constClient (.ok .null),
    clientSupportedOperations := [⟨"AzureBlob", "ListFolder"⟩],
    apiHubServiceDetails := { apiVersion := "2018-11-01", baseUrl := "https://apihub.base" } }

/-- Whether a settled call failed with a ConnectorServiceException. -/
def isConnectorError : Except JSError JSON → Bool
  | .error (.connector _ _ _ _) => true
  | _ => false

theorem unwrap_okEnvelope (b : JSON) (url : String) :
    getResponseFromDynamicApi (okEnvelope b) url = .ok b := rfl

/-- C7: with a managed-identity connection, the router performs exactly one
dispatch, a POST to the dynamicInvoke endpoint carrying the api-version
query parameter and the request/properties content assembled from the
parameters map, whatever parameters.method names. -/
theorem c7_managed_identity_post (options : BaseConnectorServiceOptions)
    (connectionId connectorId : String) (parameters managedIdentityProperties : JSON) :
    (executeAzureDynamicApiWithLog options connectionId connectorId parameters
        true managedIdentityProperties).2
      = [⟨.post,
          { uri := options.baseUrl ++ "/dynamicInvoke",
            queryParameters := [("api-version", .str options.apiHubServiceDetails.apiVersion)],
            headers := .undef,
            content := .obj
              [("request", .obj
                [("method", memberD parameters "method"),
                 ("path", memberD parameters "path"),
                 ("body", memberD parameters "body"),
                 ("queries", memberD parameters "queries"),
                 ("headers", memberD parameters "headers")]),
               ("properties", managedIdentityProperties)] }⟩] := rfl

/-- C10: whenever the unwrapped body is falsy (undefined, null, false, 0 or
the empty string), getLegacyDynamicSchema returns null. -/
theorem c10_falsy_body_yields_null (extension : LegacyDynamicSchemaExtension)
    (b : JSON) (options : BaseConnectorServiceOptions)
    (connectionId connectorId : String) (parameters managedIdentityProperties : JSON)
    (hclient : options.httpClient = constClient (.ok (okEnvelope b)))
    (hb : b.truthy = false) :
    getLegacyDynamicSchema options connectionId connectorId parameters extension
      true managedIdentityProperties = .ok .null := by
  simp only [getLegacyDynamicSchema, getLegacyDynamicSchemaWithLog,
    executeAzureDynamicApiWithLog, hclient, constClient, if_true]
  simp [unwrap_okEnvelope, legacySchemaFromResponse, Except.map, hb]

theorem c10_witness :
    (JSON.num 0).truthy = false ∧
      getLegacyDynamicSchema
          (sampleOptions (constClient (.ok (okEnvelope (.num 0)))))
          "conn" "connector" (.obj [("method", .str "get")])
          ⟨some "schema"⟩ true .undef = .ok .null :=
  ⟨rfl, c10_falsy_body_yields_null ⟨some "schema"⟩ (.num 0)
    (sampleOptions (constClient (.ok (okEnvelope (.num 0)))))
    "conn" "connector" (.obj [("method", .str "get")]) .undef rfl rfl⟩

/-- C5: when the located candidate collection (the value at the collection
path when that is set, else the whole unwrapped body) is absent or empty,
getLegacyDynamicValues returns the raw unwrapped body unchanged. -/
theorem c5_empty_collection_passthrough (extension : LegacyDynamicValuesExtension)
    (parameterArrayType : String) (b values : JSON) (options : BaseConnectorServiceOptions)
    (connectionId connectorId : String) (parameters managedIdentityProperties : JSON)
    (hclient : options.httpClient = constClient (.ok (okEnvelope b)))
    (hvalues : getObjectPropertyValue b (collectionPathOf extension) = values)
    (habsent : values = .undef ∨ values = .null ∨ values = .arr []) :
    getLegacyDynamicValues options connectionId connectorId parameters extension
      parameterArrayType true managedIdentityProperties = .ok b := by
  simp only [getLegacyDynamicValues, getLegacyDynamicValuesWithLog,
    executeAzureDynamicApiWithLog, hclient, constClient, if_true]
  simp only [unwrap_okEnvelope, legacyValuesFromResponse, Except.bind]
  rw [hvalues]
  rcases habsent with h | h | h <;> subst h <;> simp [JSON.truthy, lengthMember]

theorem c5_witness :
    (getObjectPropertyValue (.obj [("value", .arr [])])
        (collectionPathOf ⟨some "value", "id", none, none, none⟩) = .arr []) ∧
      getLegacyDynamicValues
          (sampleOptions (constClient (.ok (okEnvelope (.obj [("value", .arr [])])))))
          "conn" "connector" (.obj [("method", .str "get"), ("path", .str "/p")])
          ⟨some "value", "id", none, none, none⟩ "" true .undef
        = .ok (.obj [("value", .arr [])]) :=
  ⟨rfl, c5_empty_collection_passthrough ⟨some "value", "id", none, none, none⟩ "" _ _
    (sampleOptions (constClient (.ok (okEnvelope (.obj [("value", .arr [])])))))
    "conn" "connector" (.obj [("method", .str "get"), ("path", .str "/p")]) .undef
    rfl rfl (Or.inr (Or.inr rfl))⟩

/-- C1: at value-path "schema/properties" the call returns null, because
splice hands the extractor the removed final segment, even though the
remaining prefix path locates the schema object in the body. -/
theorem c1_properties_splice_eval :
    getLegacyDynamicSchema
        (sampleOptions (constClient (.ok (okEnvelope c1Body))))
        "conn" "connector" (.obj [("method", .str "get"), ("path", .str "/p")])
        ⟨some "schema/properties"⟩ true .undef = .ok .null
    ∧ getObjectPropertyValue c1Body ["schema"]
        = .obj [("type", .str "object"),
            ("properties", .obj [("id", .obj [("type", .str "string")])])] :=
  ⟨rfl, rfl⟩

/-- C2: on the generic route a completed response whose envelope statusCode
is not OK is returned to the caller as a success body, untouched by the
Response Normalizer. -/
theorem c2_generic_route_skips_normalizer :
    getLegacyDynamicValues
        (sampleOptions (constClient (.ok c2Envelope)))
        "conn" "HttpConnector"
        (.obj [("method", .str "get"), ("path", .str "/items")])
        ⟨none, "id", none, none, none⟩ "" false .undef = .ok c2Envelope
    ∧ isOkStatus (memberD c2Envelope "statusCode") = false :=
  ⟨rfl, rfl⟩

/-- C3: on the generic route a transport rejection reaches the caller in
its original shape, not rewrapped, while a synchronous unsupported-method
throw is rewrapped as API_EXECUTION_FAILED with diagnostics and cause. -/
theorem c3_transport_rejection_escapes :
    executeAzureDynamicApi
        (sampleOptions (constClient (.error (.external (some "socket hang up")))))
        "conn" "HttpConnector"
        (.obj [("method", .str "get"), ("path", .str "/items")]) false .undef
      = .error (.external (some "socket hang up"))
    ∧ executeAzureDynamicApi
        (sampleOptions (constClient (.ok (.num 1))))
        "conn" "HttpConnector"
        (.obj [("method", .str "DELETE"), ("path", .str "/items")]) false .undef
      = .error (.connector .API_EXECUTION_FAILED
          "Unsupported dynamic call connector method - 'DELETE'"
          (.request (.str "DELETE") "https://designer.base/conn/extensions/proxy/items"
            (.str "/items"))
          (some (.unsupported "Unsupported dynamic call connector method - 'DELETE'"))) :=
  ⟨rfl, rfl⟩

/-- C9: the allow-list test holds exactly when some entry matches both
identity fields under case-insensitive equality, and recasing either input
never changes the result. -/
theorem c9_allow_list_case_insensitive (options : BaseConnectorServiceOptions)
    (connectorId operationId connectorId2 operationId2 : String)
    (hc : strToLower connectorId2 = strToLower connectorId)
    (ho : strToLower operationId2 = strToLower operationId) :
    isClientSupportedOperation options connectorId2 operationId2
        = isClientSupportedOperation options connectorId operationId
    ∧ (isClientSupportedOperation options connectorId operationId = true ↔
        ∃ operationInfo ∈ options.clientSupportedOperations,
          strToLower connectorId = strToLower operationInfo.connectorId ∧
          strToLower operationId = strToLower operationInfo.operationId) := by
  constructor
  · simp [isClientSupportedOperation, equals, hc, ho]
  · simp [isClientSupportedOperation, equals, List.any_eq_true]

theorem c9_witness :
    strToLower "AZUREblob" = strToLower "AzureBlob" ∧
    strToLower "LISTFOLDER" = strToLower "ListFolder" ∧
    (isClientSupportedOperation c9Options "AZUREblob" "LISTFOLDER"
        = isClientSupportedOperation c9Options "AzureBlob" "ListFolder"
      ∧ (isClientSupportedOperation c9Options "AzureBlob" "ListFolder" = true ↔
          ∃ operationInfo ∈ c9Options.clientSupportedOperations,
            strToLower "AzureBlob" = strToLower operationInfo.connectorId ∧
            strToLower "ListFolder" = strToLower operationInfo.operationId)) :=
  ⟨rfl, rfl, c9_allow_list_case_insensitive c9Options "AzureBlob" "ListFolder"
    "AZUREblob" "LISTFOLDER" rfl rfl⟩

/-- C6: when the collection path locates a non-empty sequence, the result
has one dynamic value per element, order-preserving, each built from its
element per the descriptor. -/
theorem c6_values_mapped_elementwise (extension : LegacyDynamicValuesExtension)
    (parameterArrayType : String) (b : JSON) (elems : List JSON)
    (options : BaseConnectorServiceOptions) (connectionId connectorId : String)
    (parameters managedIdentityProperties : JSON)
    (hclient : options.httpClient = constClient (.ok (okEnvelope b)))
    (hcoll : getObjectPropertyValue b (collectionPathOf extension) = .arr elems)
    (hne : elems ≠ []) :
    getLegacyDynamicValues options connectionId connectorId parameters extension
        parameterArrayType true managedIdentityProperties
      = .ok (.arr (elems.map fun property =>
          let value :=
            if parameterArrayType != "" && parameterArrayType != Types.Object
            then property
            else getObjectPropertyValue property (splitOnChar '/' extension.valuePath)
          let displayName :=
            if parameterArrayType != "" && parameterArrayType != Types.Object
            then property
            else match extension.valueTitle with
              | some t =>
                if t != "" then getObjectPropertyValue property (splitOnChar '/' t)
                else value
              | none => value
          let description :=
            match extension.valueDescription with
            | some d =>
              if d != "" then getObjectPropertyValue property (splitOnChar '/' d)
              else JSON.undef
            | none => JSON.undef
          let disabled :=
            match extension.valueSelectable with
            | some sel =>
              if sel != "" then
                let selectableValue := getObjectPropertyValue property (splitOnChar '/' sel)
                if isNullOrUndefined selectableValue then false else !selectableValue.truthy
              else false
            | none => false
          JSON.obj [("value", value), ("displayName", displayName),
            ("description", description), ("disabled", .bool disabled)])) := by
  simp only [getLegacyDynamicValues, getLegacyDynamicValuesWithLog,
    executeAzureDynamicApiWithLog, hclient, constClient, if_true]
  simp only [unwrap_okEnvelope, legacyValuesFromResponse, Except.bind]
  rw [hcoll]
  have hlen : ((elems.length : Int) != 0) = true := by
    cases elems with
    | nil => exact absurd rfl hne
    | cons x xs => simp; omega
  simp only [JSON.truthy, lengthMember, hlen, Bool.and_self, if_true, Bool.true_and]
  congr 2
  apply List.map_congr_left
  intro property _
  unfold mapDynamicValue
  rcases extension with ⟨vc, vp, vt, vdesc, vsel⟩
  dsimp only
  by_cases hk : parameterArrayType != "" && parameterArrayType != Types.Object <;>
    cases vt <;> cases vdesc <;> cases vsel <;>
      simp [hk, getJSONValue, JSON.truthy] <;> split_ifs <;>
        simp_all [JSON.truthy, isNullOrUndefined]

theorem c6_witness :
    ([.obj [("id", .str "a"), ("name", .str "A"), ("ok", .bool false)],
      .obj [("id", .str "b"), ("name", .str "B")]] : List JSON) ≠ [] ∧
    getLegacyDynamicValues
        (sampleOptions (constClient (.ok (okEnvelope (.obj [("value",
          .arr [.obj [("id", .str "a"), ("name", .str "A"), ("ok", .bool false)],
                .obj [("id", .str "b"), ("name", .str "B")]])])))))
        "conn" "connector" (.obj [("method", .str "get"), ("path", .str "/p")])
        ⟨some "value", "id", some "name", none, some "ok"⟩ "" true .undef
      = .ok (.arr
          [.obj [("value", .str "a"), ("displayName", .str "A"),
                 ("description", .undef), ("disabled", .bool true)],
           .obj [("value", .str "b"), ("displayName", .str "B"),
                 ("description", .undef), ("disabled", .bool false)]]) :=
  ⟨List.cons_ne_nil _ _,
    (c6_values_mapped_elementwise ⟨some "value", "id", some "name", none, some "ok"⟩
      "" _ _
      (sampleOptions (constClient (.ok (okEnvelope (.obj [("value",
        .arr [.obj [("id", .str "a"), ("name", .str "A"), ("ok", .bool false)],
              .obj [("id", .str "b"), ("name", .str "B")]])])))))
      "conn" "connector" (.obj [("method", .str "get"), ("path", .str "/p")]) .undef
      rfl rfl (List.cons_ne_nil _ _)).trans rfl⟩

theorem lookupField_objAssign (k q : String) (v : JSON) :
    ∀ f : List (String × JSON),
      lookupField (objAssign f k v) q = if k = q then v else lookupField f q := by
  intro f
  induction f with
  | nil => by_cases h : k = q <;> simp [objAssign, lookupField, h]
  | cons p rest ih =>
    obtain ⟨k', v'⟩ := p
    by_cases h1 : k' = k
    · subst h1
      by_cases h2 : k' = q <;> simp [objAssign, lookupField, h2]
    · by_cases h2 : k' = q
      · subst h2
        simp [objAssign, lookupField, h1, Ne.symm h1]
      · simp [objAssign, lookupField, h1, h2, ih]

theorem lookupField_eq_undef_of_not_mem (q : String) :
    ∀ f : List (String × JSON), q ∉ f.map Prod.fst → lookupField f q = .undef := by
  intro f
  induction f with
  | nil => intro _; rfl
  | cons p rest ih =>
    obtain ⟨k', v'⟩ := p
    intro h
    simp only [List.map_cons, List.mem_cons, not_or] at h
    simp [lookupField, Ne.symm h.1, ih h.2]

theorem mergeAdditionalParameters_lookup (additionalFields : List (String × JSON)) :
    ∀ (ks : List String) (acc : List (String × JSON)),
      (∀ k ∈ ks, isNullOrUndefined (lookupField additionalFields k) = false) →
      ∃ rf, mergeAdditionalParameters additionalFields ks acc = .ok rf ∧
        ∀ q, lookupField rf q =
          if q ∈ ks ∧ (memberD (lookupField additionalFields q) "value").isUndef = false
          then memberD (lookupField additionalFields q) "value"
          else lookupField acc q := by
  intro ks
  induction ks with
  | nil =>
    intro acc _
    exact ⟨acc, rfl, fun q => by simp⟩
  | cons k rest ih =>
    intro acc h
    have hk := h k (List.mem_cons_self k rest)
    obtain ⟨rf, hrf, hlook⟩ := ih
      (if (memberD (lookupField additionalFields k) "value").isUndef then acc
       else objAssign acc k (memberD (lookupField additionalFields k) "value"))
      (fun q hq => h q (List.mem_cons_of_mem _ hq))
    refine ⟨rf, ?_, ?_⟩
    · rw [mergeAdditionalParameters, hk]
      simpa using hrf
    · intro q
      rw [hlook q]
      by_cases hq : q = k
      · subst hq
        by_cases hu : (memberD (lookupField additionalFields q) "value").isUndef
        · simp [hu]
        · simp [hu, lookupField_objAssign]
      · by_cases hu : (memberD (lookupField additionalFields k) "value").isUndef
        · simp [hu, List.mem_cons, hq]
        · simp [hu, List.mem_cons, hq, lookupField_objAssign, Ne.symm hq]

/-- C8: getInvokeParameters yields the caller parameters with each
dynamic-state additional parameter merged in only when its value is not
undefined: keys whose dynamic-state value is undefined, and keys without a
dynamic-state entry, keep the caller entry; a null value does overwrite. -/
theorem c8_invoke_parameters_merge (pf af : List (String × JSON)) (dynamicState : JSON)
    (hd : isNullOrUndefined dynamicState = false)
    (hadd : memberD dynamicState "parameters" = .obj af)
    (hent : ∀ k ∈ af.map Prod.fst, isNullOrUndefined (lookupField af k) = false) :
    ∃ rf, getInvokeParameters (.obj pf) dynamicState = .ok (.obj rf) ∧
      ∀ q, lookupField rf q =
        if (memberD (lookupField af q) "value").isUndef = true
        then lookupField pf q
        else memberD (lookupField af q) "value" := by
  obtain ⟨rf, hrf, hlook⟩ := mergeAdditionalParameters_lookup af (af.map fun x => x.1) pf hent
  refine ⟨rf, ?_, fun q => ?_⟩
  · unfold getInvokeParameters
    simp [jsMember, hd, hadd, JSON.truthy, objFieldsOf, Bind.bind, Except.bind, hrf]
  · rw [hlook q]
    by_cases hmem : q ∈ af.map Prod.fst
    · by_cases hu : (memberD (lookupField af q) "value").isUndef <;> simp [hmem, hu]
    · have h0 : lookupField af q = .undef := lookupField_eq_undef_of_not_mem q af hmem
      simp [hmem, h0, memberD, JSON.isUndef]

theorem c8_witness :
    isNullOrUndefined (JSON.obj [("parameters", .obj
        [("path", .obj [("value", .str "/override")]),
         ("skip", .obj [("value", .undef)]),
         ("extra", .obj [("value", .null)])])]) = false ∧
    (∀ k ∈ ([("path", JSON.obj [("value", JSON.str "/override")]),
             ("skip", JSON.obj [("value", JSON.undef)]),
             ("extra", JSON.obj [("value", JSON.null)])].map Prod.fst),
      isNullOrUndefined (lookupField
        [("path", .obj [("value", .str "/override")]),
         ("skip", .obj [("value", .undef)]),
         ("extra", .obj [("value", .null)])] k) = false) ∧
    (∃ rf, getInvokeParameters
        (.obj [("path", .str "/base"), ("method", .str "get")])
        (.obj [("parameters", .obj
          [("path", .obj [("value", .str "/override")]),
           ("skip", .obj [("value", .undef)]),
           ("extra", .obj [("value", .null)])])]) = .ok (.obj rf) ∧
      ∀ q, lookupField rf q =
        if (memberD (lookupField
            [("path", .obj [("value", .str "/override")]),
             ("skip", .obj [("value", .undef)]),
             ("extra", .obj [("value", .null)])] q) "value").isUndef = true
        then lookupField [("path", .str "/base"), ("method", .str "get")] q
        else memberD (lookupField
            [("path", .obj [("value", .str "/override")]),
             ("skip", .obj [("value", .undef)]),
             ("extra", .obj [("value", .null)])] q) "value") :=
  ⟨rfl, by decide, c8_invoke_parameters_merge _ _ _ rfl rfl (by decide)⟩


/-- A member read on a nullish value via `memberD` yields `undefined`. -/
theorem memberD_of_nullish (x : JSON) (k : String) (h : isNullOrUndefined x = true) :
    memberD x k = .undef := by
  cases x <;> simp_all [isNullOrUndefined, memberD]

/-- C4 counterexample: a completed envelope with a failing status code and
no body makes the normalizer throw a TypeError (from destructuring error
and message out of the nullish body), not a connector-service error. -/
theorem c4_counterexample_body_typeerror :
    getResponseFromDynamicApi (.obj [("statusCode", .str "NotFound")]) "https://x/y"
      = .error (.typeError "cannot destructure error and message from body")
    ∧ isConnectorError
        (getResponseFromDynamicApi (.obj [("statusCode", .str "NotFound")]) "https://x/y")
      = false := ⟨rfl, rfl⟩

/-- C4 (amended): given a non-nullish raw response, the normalizer returns
the envelope body on an OK status; on any other status, provided the
envelope body is itself non-nullish and its headers carry no
client-request-id, it fails with API_EXECUTION_FAILED_WITH_ERROR carrying
the envelope and the documented message chain. -/
theorem c4_unwrap_amended (raw envelope : JSON) (requestUrl : String)
    (hraw : isNullOrUndefined raw = false)
    (henv : (if isNullOrUndefined (memberD raw "response") then raw
             else memberD raw "response") = envelope) :
    (isOkStatus (memberD envelope "statusCode") = true →
      getResponseFromDynamicApi raw requestUrl = .ok (memberD envelope "body")) ∧
    (isOkStatus (memberD envelope "statusCode") = false →
     isNullOrUndefined (memberD envelope "body") = false →
     (getClientRequestIdFromHeaders (memberD envelope "headers")).truthy = false →
      getResponseFromDynamicApi raw requestUrl
        = .error (.connector .API_EXECUTION_FAILED_WITH_ERROR
            (if (memberD envelope "statusCode").isUndef = false
                ∧ (memberD (memberD envelope "body") "message").truthy = true
             then "Error code: '" ++ jsToString (memberD envelope "statusCode")
               ++ "', Message: '"
               ++ jsToString (memberD (memberD envelope "body") "message") ++ "'."
             else if isNullOrUndefined
                 (memberD (memberD (memberD envelope "body") "error") "message") = false
             then jsToString (memberD (memberD (memberD envelope "body") "error") "message")
             else "Error executing the api - " ++ requestUrl)
            (.response envelope) none)) := by
  have henvnn : isNullOrUndefined envelope = false := by
    rw [← henv]
    by_cases h : isNullOrUndefined (memberD raw "response") <;> simp [h, hraw]
  constructor
  · intro hok
    unfold getResponseFromDynamicApi
    simp [jsMember, hraw, Bind.bind, Except.bind, henv, hok, henvnn]
  · intro hnotok hbody hcrid
    unfold getResponseFromDynamicApi
    simp only [jsMember, hraw, Bool.false_eq_true, if_false, Bind.bind, Except.bind, henv,
      hnotok, henvnn, getClientRequestIdFromHeaders]
    unfold getErrorMessageFromConnectorResponse
    simp only [jsMember, henvnn, Bool.false_eq_true, if_false, Bind.bind, Except.bind,
      hbody]
    simp only [getClientRequestIdFromHeaders] at hcrid
    simp only [hcrid, Bool.false_eq_true, if_false]
    by_cases hsc : (memberD envelope "statusCode").isUndef
    · by_cases herr : isNullOrUndefined (memberD (memberD envelope "body") "error")
      · simp [hsc, herr, memberD_of_nullish _ "message" herr, jsToString, isNullOrUndefined]
      · by_cases hm : isNullOrUndefined
            (memberD (memberD (memberD envelope "body") "error") "message")
        · simp [hsc, herr, hm, jsToString]
        · simp [hsc, herr, hm, jsToString]
    · by_cases hmsg : (memberD (memberD envelope "body") "message").truthy
      · simp [hsc, hmsg, jsToString]
      · by_cases herr : isNullOrUndefined (memberD (memberD envelope "body") "error")
        · simp [hsc, hmsg, herr, memberD_of_nullish _ "message" herr, jsToString,
            isNullOrUndefined]
        · by_cases hm : isNullOrUndefined
              (memberD (memberD (memberD envelope "body") "error") "message")
          · simp [hsc, hmsg, herr, hm, jsToString]
          · simp [hsc, hmsg, herr, hm, jsToString]

theorem c4_witness :
    isNullOrUndefined (JSON.obj [("statusCode", JSON.num 404), ("body", JSON.obj [("message", JSON.str "not found")])]) = false ∧
    ((isOkStatus (memberD (JSON.obj [("statusCode", JSON.num 404), ("body", JSON.obj [("message", JSON.str "not found")])]) "statusCode") = true →
        getResponseFromDynamicApi (JSON.obj [("statusCode", JSON.num 404), ("body", JSON.obj [("message", JSON.str "not found")])]) "https://x/y"
          = .ok (memberD (JSON.obj [("statusCode", JSON.num 404), ("body", JSON.obj [("message", JSON.str "not found")])]) "body")) ∧
      (isOkStatus (memberD (JSON.obj [("statusCode", JSON.num 404), ("body", JSON.obj [("message", JSON.str "not found")])]) "statusCode") = false →
       isNullOrUndefined (memberD (JSON.obj [("statusCode", JSON.num 404), ("body", JSON.obj [("message", JSON.str "not found")])]) "body") = false →
       (getClientRequestIdFromHeaders (memberD (JSON.obj [("statusCode", JSON.num 404), ("body", JSON.obj [("message", JSON.str "not found")])]) "headers")).truthy = false →
        getResponseFromDynamicApi (JSON.obj [("statusCode", JSON.num 404), ("body", JSON.obj [("message", JSON.str "not found")])]) "https://x/y"
          = .error (.connector .API_EXECUTION_FAILED_WITH_ERROR
              (if (memberD (JSON.obj [("statusCode", JSON.num 404), ("body", JSON.obj [("message", JSON.str "not found")])]) "statusCode").isUndef = false
                  ∧ (memberD (memberD (JSON.obj [("statusCode", JSON.num 404), ("body", JSON.obj [("message", JSON.str "not found")])]) "body") "message").truthy = true
               then "Error code: '" ++ jsToString (memberD (JSON.obj [("statusCode", JSON.num 404), ("body", JSON.obj [("message", JSON.str "not found")])]) "statusCode")
                 ++ "', Message: '"
                 ++ jsToString (memberD (memberD (JSON.obj [("statusCode", JSON.num 404), ("body", JSON.obj [("message", JSON.str "not found")])]) "body") "message") ++ "'."
               else if isNullOrUndefined
                   (memberD (memberD (memberD (JSON.obj [("statusCode", JSON.num 404), ("body", JSON.obj [("message", JSON.str "not found")])]) "body") "error") "message") = false
               then jsToString (memberD (memberD (memberD (JSON.obj [("statusCode", JSON.num 404), ("body", JSON.obj [("message", JSON.str "not found")])]) "body") "error") "message")
               else "Error executing the api - " ++ "https://x/y")
              (.response (JSON.obj [("statusCode", JSON.num 404), ("body", JSON.obj [("message", JSON.str "not found")])])) none))) :=
  ⟨rfl, c4_unwrap_amended (JSON.obj [("statusCode", JSON.num 404), ("body", JSON.obj [("message", JSON.str "not found")])]) (JSON.obj [("statusCode", JSON.num 404), ("body", JSON.obj [("message", JSON.str "not found")])]) "https://x/y" rfl rfl⟩
